import Mathlib

/-!
Verification of the video-compress batch converter (`src/main.py`).

The program is embedded shallowly: `pathlib.Path` values become a directory
plus a final name, the preset catalog becomes inductive enumerations, the
filesystem becomes a record of query functions, and the per-file conversion
loop becomes structural recursion threading the filesystem state.
-/

namespace VideoCompress

/-! ### Pathlib-style name splitting

`main.py` uses `Path.stem`, `Path.suffix`, `Path.with_stem` and
`Path.with_suffix`.  In `pathlib`, a name splits at its last dot, and the
split is non-trivial only when that dot is neither the first nor the last
character of the name (`i = name.rfind('.'); 0 < i < len(name) - 1`).
`nameSplit` computes the same split by scanning the reversed name: `t` is
the run of characters after the last dot and `d` is the rest (beginning
with the dot itself, when there is one). -/

def pyLower (cs : List Char) : List Char := cs.map Char.toLower

def nameSplit (cs : List Char) : List Char × List Char :=
  if cs.reverse.takeWhile (fun c => c != '.') = []
      ∨ (cs.reverse.dropWhile (fun c => c != '.')).length ≤ 1 then (cs, [])
  else (((cs.reverse.dropWhile (fun c => c != '.')).drop 1).reverse,
    '.' :: (cs.reverse.takeWhile (fun c => c != '.')).reverse)

/-- `Path.stem`: the final name without its suffix. -/
def pstem (cs : List Char) : List Char := (nameSplit cs).1

/-- `Path.suffix`: the extension of the final name, dot included. -/
def psuffix (cs : List Char) : List Char := (nameSplit cs).2

/-- A `pathlib.Path`: parent components plus the final name. -/
structure PyPath where
  dir : List String
  name : List Char
deriving DecidableEq

/-- `str(path)`: components joined by `/`. -/
def pathStr (p : PyPath) : String :=
  String.intercalate "/" (p.dir ++ [String.mk p.name])

/-- `Path.with_stem(s)` = `with_name(s + suffix)`. -/
def with_stem (p : PyPath) (s : List Char) : PyPath :=
  ⟨p.dir, s ++ psuffix p.name⟩

/-- `Path.with_suffix(s)`: replace the suffix (the name keeps its stem). -/
def with_suffix (p : PyPath) (s : List Char) : PyPath :=
  ⟨p.dir, pstem p.name ++ s⟩

/-! ### Preset catalog (`CodecInfo`, `Codec`, `Resolution`, `VideoPresetInfo`,
`VideoPreset`, lines 16-68 of `main.py`) -/

structure CodecInfo where
  extension : String
  codec : String
  lib : String
deriving DecidableEq

inductive Codec
  | h265
  | av1
deriving DecidableEq

/-- The payload attached to each `Codec` enum member. -/
def Codec.info : Codec → CodecInfo
  | .h265 => ⟨"mp4", "h265", "libx265"⟩
  | .av1  => ⟨"mkv", "av1", "libaom-av1"⟩

/-- `CodecInfo.__str__`. -/
def CodecInfo.str (c : CodecInfo) : String :=
  "codec:" ++ c.codec ++ " (ext:" ++ c.extension ++ ", lib:" ++ c.lib ++ ")"

inductive Resolution
  | fhd
  | uhd
deriving DecidableEq

/-- The `value` of each `Resolution` enum member. -/
def Resolution.val : Resolution → String
  | .fhd => "1920:1080"
  | .uhd => "3840:2160"

/-- The Python enum member name of a `Resolution`. -/
def Resolution.name : Resolution → String
  | .fhd => "fhd"
  | .uhd => "uhd"

structure VideoPresetInfo where
  codec : Codec
  resolution : Resolution
  bitrateMbps : Nat
deriving DecidableEq

/-- `VideoPresetInfo.__str__`. -/
def VideoPresetInfo.str (p : VideoPresetInfo) : String :=
  p.codec.info.str ++ " " ++ p.resolution.name ++ ":" ++ p.resolution.val
    ++ " " ++ Nat.repr p.bitrateMbps ++ "Mbps"

inductive VideoPreset
  | h265_fhd_6
  | h265_uhd_40
  | av1_fhd_5
  | av1_uhd_20
deriving DecidableEq

/-- The payload attached to each `VideoPreset` enum member. -/
def VideoPreset.info : VideoPreset → VideoPresetInfo
  | .h265_fhd_6  => ⟨.h265, .fhd, 6⟩
  | .h265_uhd_40 => ⟨.h265, .uhd, 40⟩
  | .av1_fhd_5   => ⟨.av1, .fhd, 5⟩
  | .av1_uhd_20  => ⟨.av1, .uhd, 20⟩

/-- The Python enum member name of a `VideoPreset`. -/
def VideoPreset.name : VideoPreset → String
  | .h265_fhd_6  => "h265_fhd_6"
  | .h265_uhd_40 => "h265_uhd_40"
  | .av1_fhd_5   => "av1_fhd_5"
  | .av1_uhd_20  => "av1_uhd_20"

/-- Iteration order of the `VideoPreset` enum (declaration order). -/
def VideoPreset.all : List VideoPreset :=
  [.h265_fhd_6, .h265_uhd_40, .av1_fhd_5, .av1_uhd_20]

/-- `get_preset_by_name` (lines 64-68): first member with a matching name. -/
def get_preset_by_name (s : String) : Option VideoPresetInfo :=
  (VideoPreset.all.find? (fun m => m.name == s)).map VideoPreset.info

/-! ### `--list-presets` branch (lines 155-161) -/

/-- One line of the preset listing: `  * {member.name}: {member.value}`. -/
def presetLine (m : VideoPreset) : String :=
  "  * " ++ m.name ++ ": " ++ m.info.str

/-- Everything printed by the `--list-presets` branch, in order. -/
def list_presets_output : List String :=
  [""] ++ ["PRESETS:"] ++ VideoPreset.all.map presetLine ++ [""]

/-- The exit status of the `--list-presets` branch (`exit(1)`). -/
def list_presets_exit : Nat := 1

/-! ### Output path derivation (`process_mp4_files`, lines 121-125) -/

/-- `f"{preset.resolution.name}_{preset.codec.value.codec}_{preset.bitrateMbps}mbps"`. -/
def extra_info (p : VideoPresetInfo) : String :=
  p.resolution.name ++ "_" ++ p.codec.info.codec ++ "_"
    ++ Nat.repr p.bitrateMbps ++ "mbps"

/-- The output path built in the loop body of `process_mp4_files`:
`input.with_stem(stem + "_" + extra_info).with_suffix("." + extension)`. -/
def output_path (f : PyPath) (p : VideoPresetInfo) : PyPath :=
  with_suffix (with_stem f (pstem f.name ++ ("_" ++ extra_info p).toList))
    ("." ++ p.codec.info.extension).toList

/-- The spec formula for the output path, as written in spec.md §3 and §8:
`{stem(I)}_{resolution_name(P)}_{codec_name(P)}_{bitrate(P)}mbps.{extension(P)}`
in the same directory as the input. -/
def output_path_formula (f : PyPath) (p : VideoPresetInfo) : PyPath :=
  ⟨f.dir,
    pstem f.name
      ++ ("_" ++ p.resolution.name ++ "_" ++ p.codec.info.codec ++ "_"
          ++ Nat.repr p.bitrateMbps ++ "mbps" ++ "." ++ p.codec.info.extension).toList⟩

/-! ### The filesystem and discovery (`get_mp4_files`, lines 71-83)

The filesystem is a record of the queries the program makes: `is_file()`,
`is_dir()`, `rglob('*')` (every entry — file or directory — recursively
under a directory, in traversal order) and `exists()`. -/

structure FileSystem where
  isFile : PyPath → Bool
  isDir : PyPath → Bool
  rglob : PyPath → List PyPath
  pexists : PyPath → Bool

/-- The diagnostic printed by the final `else` branch of `get_mp4_files`. -/
def neitherMsg (p : PyPath) : String :=
  pathStr p ++ " is neither a valid file nor a folder."

/-- `get_mp4_files`: returns the collected list together with the lines
printed to stdout (the diagnostic of the `else` branch). -/
def get_mp4_files (fs : FileSystem) (path : PyPath) : List PyPath × List String :=
  if fs.isFile path && (pyLower (psuffix path.name) == (".mp4").toList) then
    ([path], [])
  else if fs.isDir path then
    ((fs.rglob path).filter (fun f => pyLower (psuffix f.name) == (".mp4").toList), [])
  else
    ([], [neitherMsg path])

/-! ### Conversion (`exec_ffmpeg`, lines 86-114)

`subprocess.run(cmd, check=True, shell=True)` is modelled by an oracle
`run : String → Bool` telling whether a given command line exits with
status zero; a successful run creates the output file (the documented
side effect of the tool), so the filesystem gains that path. -/

/-- The shell command interpolated at lines 103-105. -/
def ffmpeg_cmd (input output : PyPath) (p : VideoPresetInfo) : String :=
  "ffmpeg -i \"" ++ pathStr input ++ "\" -c:v " ++ p.codec.info.lib
    ++ " -crf 23 -preset medium -vf \"scale=" ++ p.resolution.val
    ++ "\" -c:a copy -loglevel error \"" ++ pathStr output ++ "\""

/-- Record that a path now exists (the output file written by the tool). -/
def addPath (fs : FileSystem) (p : PyPath) : FileSystem :=
  { fs with pexists := fun q => q == p || fs.pexists q }

/-- Outcome of one `exec_ffmpeg` call.  `notFound` is the raised
`FileNotFoundError`, `skipped` the warning-and-return branch (a logged
warning, no error) when the output already exists, `converted` a
successful run, and `execError` the re-raised `CalledProcessError`. -/
inductive FfmpegResult
  | notFound
  | skipped
  | converted
  | execError
deriving DecidableEq

/-- `exec_ffmpeg`: the branch taken and the filesystem afterwards. -/
def exec_ffmpeg (run : String → Bool) (fs : FileSystem)
    (input output : PyPath) (p : VideoPresetInfo) : FfmpegResult × FileSystem :=
  if !fs.pexists input then (.notFound, fs)
  else if fs.pexists output then (.skipped, fs)
  else if run (ffmpeg_cmd input output p) then (.converted, addPath fs output)
  else (.execError, fs)

/-! ### The batch loop (`process_mp4_files`, lines 117-135)

The loop converts files in order; a raised exception (`notFound` or
`execError`) propagates out of the loop, so processing stops at the
failing file.  Timing and log lines do not affect control flow and are
omitted. -/

structure BatchResult where
  log : List (PyPath × FfmpegResult)
  fs : FileSystem
  ok : Bool

/-- The loop of `process_mp4_files`, threading the filesystem.  `ok = false`
means an exception (`notFound` or `execError`) escaped the loop at the last
logged file; otherwise the loop moves on to the next file. -/
def process_mp4_files (run : String → Bool) (p : VideoPresetInfo)
    (fs : FileSystem) : List PyPath → BatchResult
  | [] => ⟨[], fs, true⟩
  | f :: rest =>
    if (exec_ffmpeg run fs f (output_path f p) p).1 = .notFound
        ∨ (exec_ffmpeg run fs f (output_path f p) p).1 = .execError then
      ⟨[(f, (exec_ffmpeg run fs f (output_path f p) p).1)],
        (exec_ffmpeg run fs f (output_path f p) p).2, false⟩
    else
      ⟨(f, (exec_ffmpeg run fs f (output_path f p) p).1)
          :: (process_mp4_files run p (exec_ffmpeg run fs f (output_path f p) p).2 rest).log,
        (process_mp4_files run p (exec_ffmpeg run fs f (output_path f p) p).2 rest).fs,
        (process_mp4_files run p (exec_ffmpeg run fs f (output_path f p) p).2 rest).ok⟩

/-- `main` (lines 138-141): discovery, then the batch loop.  Returns the
printed diagnostics and the batch outcome. -/
def main_run (run : String → Bool) (fs : FileSystem) (input : PyPath)
    (p : VideoPresetInfo) : List String × BatchResult :=
  let d := get_mp4_files fs input
  (d.2, process_mp4_files run p fs d.1)

/-! ### Lemmas about `nameSplit` -/

lemma takeWhile_append_all {p : Char → Bool} (c : Char) (r : List Char)
    (hc : p c = false) :
    ∀ l : List Char, (∀ a ∈ l, p a = true) →
      (l ++ c :: r).takeWhile p = l ∧ (l ++ c :: r).dropWhile p = c :: r := by
  intro l
  induction l with
  | nil => intro _; simp [hc]
  | cons a as ih =>
    intro hl
    have ha : p a = true := hl a (by simp)
    have h2 := ih (fun x hx => hl x (by simp [hx]))
    simp [ha, h2.1, h2.2]

lemma dropWhile_head_false {p : Char → Bool} :
    ∀ (l : List Char) (c : Char) (rest : List Char),
      l.dropWhile p = c :: rest → p c = false := by
  intro l
  induction l with
  | nil => intro c rest h; simp at h
  | cons a as ih =>
    intro c rest h
    by_cases ha : p a = true
    · exact ih c rest (by simpa [ha] using h)
    · have hb : p a = false := by simpa using ha
      have : a :: as = c :: rest := by simpa [hb] using h
      cases this
      exact hb

/-- Splitting a name of the shape `xs ++ "." ++ ys` with `ys` nonempty and
dot-free and `xs` nonempty recovers `(xs, "." ++ ys)`. -/
lemma nameSplit_decomp (xs ys : List Char) (hxs : xs ≠ []) (hys : ys ≠ [])
    (hnd : ∀ a ∈ ys, a ≠ '.') :
    nameSplit (xs ++ '.' :: ys) = (xs, '.' :: ys) := by
  have hrev : (xs ++ '.' :: ys).reverse = ys.reverse ++ '.' :: xs.reverse := by
    simp
  have hall : ∀ a ∈ ys.reverse, (a != '.') = true := by
    intro a ha
    simpa using hnd a (by simpa using ha)
  have hdot : ((('.' : Char)) != '.') = false := by simp
  have hsplit := @takeWhile_append_all (fun c => c != '.') '.' xs.reverse hdot
    ys.reverse hall
  unfold nameSplit
  rw [hrev, hsplit.1, hsplit.2]
  rw [if_neg]
  · simp
  · rintro (h | h)
    · exact hys (by simpa using h)
    · simp at h
      exact hxs (by simpa using h)

/-- A nonempty suffix exposes the shape of the name: it is
`stem ++ "." ++ tail` with the stem nonempty and the tail nonempty and
dot-free. -/
lemma psuffix_decomp (cs : List Char) (h : psuffix cs ≠ []) :
    ∃ xs ys, cs = xs ++ '.' :: ys ∧ pstem cs = xs ∧ psuffix cs = '.' :: ys ∧
      xs ≠ [] ∧ ys ≠ [] ∧ ∀ a ∈ ys, a ≠ '.' := by
  by_cases hc : (cs.reverse.takeWhile (fun c => c != '.')) = []
      ∨ (cs.reverse.dropWhile (fun c => c != '.')).length ≤ 1
  · exfalso
    apply h
    unfold psuffix nameSplit
    simp only [if_pos hc]
  · push_neg at hc
    obtain ⟨ht, hd⟩ := hc
    obtain ⟨c0, d', hd'⟩ : ∃ c0 d',
        cs.reverse.dropWhile (fun c => c != '.') = c0 :: d' := by
      cases he : cs.reverse.dropWhile (fun c => c != '.') with
      | nil => rw [he] at hd; simp at hd
      | cons a b => exact ⟨a, b, rfl⟩
    have hc0 : (c0 != '.') = false := dropWhile_head_false cs.reverse c0 d' hd'
    have hc0' : c0 = '.' := by simpa using hc0
    have hcs : cs = d'.reverse ++ '.' :: (cs.reverse.takeWhile (fun c => c != '.')).reverse := by
      have hsplit : cs.reverse = cs.reverse.takeWhile (fun c => c != '.') ++ (c0 :: d') := by
        rw [← hd']
        exact (List.takeWhile_append_dropWhile _ _).symm
      have hrr := congrArg List.reverse hsplit
      simpa [hc0', List.append_assoc] using hrr
    have hnotif : ¬ ((cs.reverse.takeWhile (fun c => c != '.')) = []
        ∨ (cs.reverse.dropWhile (fun c => c != '.')).length ≤ 1) := by
      rintro (hcase | hcase)
      · exact ht hcase
      · exact absurd hcase (by omega)
    have hstem : pstem cs = d'.reverse := by
      unfold pstem nameSplit
      simp only [if_neg hnotif]
      rw [hd']
      simp
    have hsuf : psuffix cs = '.' :: (cs.reverse.takeWhile (fun c => c != '.')).reverse := by
      unfold psuffix nameSplit
      simp only [if_neg hnotif]
    refine ⟨d'.reverse, (cs.reverse.takeWhile (fun c => c != '.')).reverse,
      hcs, hstem, hsuf, ?_, ?_, ?_⟩
    · intro h0
      have : d' = [] := by simpa using h0
      rw [hd', this] at hd
      simp at hd
    · intro h0
      exact ht (by simpa using h0)
    · intro a ha
      have ha' : a ∈ cs.reverse.takeWhile (fun c => c != '.') := by simpa using ha
      have := List.mem_takeWhile_imp ha'
      simpa using this

lemma str_toList_append (s t : String) : (s ++ t).toList = s.toList ++ t.toList :=
  String.data_append s t

/-- C1: for every input file (a path whose suffix is `.mp4` case-insensitively,
the spec's InputFile data model) and every preset, the derived output path
equals the spec formula
`{stem}_{resolution_name}_{codec_name}_{bitrate}mbps.{extension}` in the same
directory as the input; in particular `movie.mp4` under `av1_fhd_5` maps to
`movie_fhd_av1_5mbps.mkv`. -/
theorem output_path_matches_formula :
    (∀ (I : PyPath) (P : VideoPresetInfo),
        pyLower (psuffix I.name) = (".mp4").toList →
        output_path I P = output_path_formula I P ∧ (output_path I P).dir = I.dir)
    ∧ output_path ⟨[], ("movie.mp4").toList⟩ VideoPreset.av1_fhd_5.info
        = ⟨[], ("movie_fhd_av1_5mbps.mkv").toList⟩ := by
  constructor
  · intro I P h
    have hne : psuffix I.name ≠ [] := by
      intro h0
      rw [h0] at h
      simp [pyLower] at h
    obtain ⟨xs, ys, hcs, hstem, hsuf, hxs, hys, hnd⟩ := psuffix_decomp I.name hne
    have hne2 : xs ++ ("_" ++ extra_info P).toList ≠ [] := by
      simp [hxs]
    have hinner : pstem ((pstem I.name ++ ("_" ++ extra_info P).toList) ++ psuffix I.name)
        = xs ++ ("_" ++ extra_info P).toList := by
      rw [hstem, hsuf]
      unfold pstem
      rw [nameSplit_decomp (xs ++ ("_" ++ extra_info P).toList) ys hne2 hys hnd]
    constructor
    · unfold output_path with_stem with_suffix output_path_formula
      simp only []
      rw [hinner, hstem]
      simp [extra_info, str_toList_append, List.append_assoc]
    · unfold output_path with_stem with_suffix
      rfl
  · decide

/-- Witness for `output_path_matches_formula`: the hypothesis holds at
`movie.mp4` with preset `av1_fhd_5`. -/
theorem output_path_matches_formula_witness :
    pyLower (psuffix ((PyPath.mk [] (("movie.mp4").toList)).name)) = (".mp4").toList
    ∧ (output_path ⟨[], ("movie.mp4").toList⟩ VideoPreset.av1_fhd_5.info
          = output_path_formula ⟨[], ("movie.mp4").toList⟩ VideoPreset.av1_fhd_5.info
        ∧ (output_path ⟨[], ("movie.mp4").toList⟩ VideoPreset.av1_fhd_5.info).dir
          = (PyPath.mk [] (("movie.mp4").toList)).dir) :=
  ⟨by decide,
    output_path_matches_formula.1 ⟨[], ("movie.mp4").toList⟩
      VideoPreset.av1_fhd_5.info (by decide)⟩

/-- C8: the `--list-presets` branch exits with status 1, and its output
lists every declared preset exactly once — each line carrying the member
name and the description string built from its codec, resolution and
bitrate. -/
theorem list_presets_lists_all_once :
    list_presets_exit = 1
    ∧ (∀ m : VideoPreset, m ∈ VideoPreset.all)
    ∧ (∀ m : VideoPreset, list_presets_output.count (presetLine m) = 1) := by
  refine ⟨rfl, ?_, ?_⟩
  · intro m
    cases m <;> decide
  · intro m
    cases m <;> decide

/-- C10: an existing regular file whose suffix is not `.mp4` falls through
both the file branch and the directory branch of `get_mp4_files`, so it
yields the empty list and the very diagnostic used for nonexistent paths,
with no error. -/
theorem non_mp4_file_gets_diagnostic (fs : FileSystem) (p : PyPath)
    (hf : fs.isFile p = true) (hd : fs.isDir p = false)
    (hs : pyLower (psuffix p.name) ≠ (".mp4").toList) :
    get_mp4_files fs p = ([], [neitherMsg p]) := by
  have hb : (fs.isFile p && (pyLower (psuffix p.name) == (".mp4").toList)) = false := by
    rw [hf]
    simp only [Bool.true_and]
    simpa using hs
  unfold get_mp4_files
  rw [hb, hd]
  simp

/-- A filesystem holding exactly one regular file `b.txt`. -/
def c10Fs : FileSystem where
  isFile p := p == (⟨[], ("b.txt").toList⟩ : PyPath)
  isDir _ := false
  rglob _ := []
  pexists p := p == (⟨[], ("b.txt").toList⟩ : PyPath)

/-- Witness for `non_mp4_file_gets_diagnostic` at the file `b.txt`. -/
theorem non_mp4_file_gets_diagnostic_witness :
    c10Fs.isFile ⟨[], ("b.txt").toList⟩ = true
    ∧ c10Fs.isDir ⟨[], ("b.txt").toList⟩ = false
    ∧ pyLower (psuffix (PyPath.mk [] (("b.txt").toList)).name) ≠ (".mp4").toList
    ∧ get_mp4_files c10Fs ⟨[], ("b.txt").toList⟩
        = ([], [neitherMsg ⟨[], ("b.txt").toList⟩]) :=
  ⟨by decide, by decide, by decide,
    non_mp4_file_gets_diagnostic c10Fs ⟨[], ("b.txt").toList⟩
      (by decide) (by decide) (by decide)⟩

/-- C5: on a path that is neither a valid file nor a directory the whole
run prints the diagnostic, discovers nothing, performs zero conversions,
and the loop finishes without error. -/
theorem invalid_path_zero_conversions (run : String → Bool) (fs : FileSystem)
    (p : PyPath) (P : VideoPresetInfo)
    (hf : fs.isFile p = false) (hd : fs.isDir p = false) :
    main_run run fs p P = ([neitherMsg p], ⟨[], fs, true⟩) := by
  unfold main_run get_mp4_files
  simp [hf, hd, process_mp4_files]

/-- A filesystem in which no path exists at all. -/
def c5Fs : FileSystem where
  isFile _ := false
  isDir _ := false
  rglob _ := []
  pexists _ := false

/-- Witness for `invalid_path_zero_conversions` at a nonexistent path. -/
theorem invalid_path_zero_conversions_witness :
    c5Fs.isFile ⟨[], ("missing").toList⟩ = false
    ∧ c5Fs.isDir ⟨[], ("missing").toList⟩ = false
    ∧ main_run (fun _ => false) c5Fs ⟨[], ("missing").toList⟩
          VideoPreset.h265_fhd_6.info
        = ([neitherMsg ⟨[], ("missing").toList⟩], ⟨[], c5Fs, true⟩) :=
  ⟨by decide, by decide,
    invalid_path_zero_conversions (fun _ => false) c5Fs ⟨[], ("missing").toList⟩
      VideoPreset.h265_fhd_6.info (by decide) (by decide)⟩

/-! ### The spec's discovery example (C4) and the suffix-only membership
test (C9) -/

/-- The example directory of spec §8: a directory `d` holding the files
`a.mp4`, `a.MP4`, `b.txt`, the subdirectory `sub`, and the file
`sub/c.mp4`. -/
def c4Dir : PyPath := ⟨[], ("d").toList⟩

def c4A : PyPath := ⟨["d"], ("a.mp4").toList⟩

def c4AM : PyPath := ⟨["d"], ("a.MP4").toList⟩

def c4B : PyPath := ⟨["d"], ("b.txt").toList⟩

def c4Sub : PyPath := ⟨["d"], ("sub").toList⟩

def c4C : PyPath := ⟨["d", "sub"], ("c.mp4").toList⟩

def c4Fs : FileSystem where
  isFile p := ([c4A, c4AM, c4B, c4C] : List PyPath).contains p
  isDir p := ([c4Dir, c4Sub] : List PyPath).contains p
  rglob p :=
    if p == c4Dir then [c4A, c4AM, c4B, c4Sub, c4C]
    else if p == c4Sub then [c4C] else []
  pexists p := ([c4Dir, c4A, c4AM, c4B, c4Sub, c4C] : List PyPath).contains p

/-- A directory `e` holding the regular file `a.mp4` and a SUBDIRECTORY
named `x.mp4`. -/
def c4BadDir : PyPath := ⟨[], ("e").toList⟩

def c4BadFile : PyPath := ⟨["e"], ("a.mp4").toList⟩

def c4BadSub : PyPath := ⟨["e"], ("x.mp4").toList⟩

def c4BadFs : FileSystem where
  isFile p := p == c4BadFile
  isDir p := p == c4BadDir || p == c4BadSub
  rglob p := if p == c4BadDir then [c4BadFile, c4BadSub] else []
  pexists p := p == c4BadDir || p == c4BadFile || p == c4BadSub

/-- C4 counterexample: over the directory `e` the scan does NOT yield
exactly the regular files with suffix `.mp4` — the subdirectory `x.mp4`
is yielded as well, because the loop body never tests `is_file`. -/
theorem c4_scan_not_files_only :
    ¬ ((get_mp4_files c4BadFs c4BadDir).1
        = (c4BadFs.rglob c4BadDir).filter
            (fun f => c4BadFs.isFile f
              && (pyLower (psuffix f.name) == (".mp4").toList))) := by
  decide

/-- C4 (amended): over a directory the scan yields exactly the walked
entries — of any kind — whose name suffix is `.mp4` case-insensitively,
in traversal order; on the spec's example directory, where every such
entry is a regular file, that is exactly `a.mp4`, `a.MP4`, `sub/c.mp4`. -/
theorem dir_scan_yields_mp4_entries :
    (∀ (fs : FileSystem) (p : PyPath), fs.isDir p = true → fs.isFile p = false →
        (get_mp4_files fs p).1
          = (fs.rglob p).filter
              (fun f => pyLower (psuffix f.name) == (".mp4").toList))
    ∧ (get_mp4_files c4Fs c4Dir).1 = [c4A, c4AM, c4C] := by
  constructor
  · intro fs p hd hf
    unfold get_mp4_files
    simp [hf, hd]
  · decide

/-- Witness for `dir_scan_yields_mp4_entries` on the example directory. -/
theorem dir_scan_yields_mp4_entries_witness :
    c4Fs.isDir c4Dir = true
    ∧ c4Fs.isFile c4Dir = false
    ∧ (get_mp4_files c4Fs c4Dir).1
        = (c4Fs.rglob c4Dir).filter
            (fun f => pyLower (psuffix f.name) == (".mp4").toList) :=
  ⟨by decide, by decide,
    dir_scan_yields_mp4_entries.1 c4Fs c4Dir (by decide) (by decide)⟩

/-- A directory `r` whose only entry is a SUBDIRECTORY named `clips.mp4`. -/
def c9Dir : PyPath := ⟨[], ("r").toList⟩

def c9SubMp4 : PyPath := ⟨["r"], ("clips.mp4").toList⟩

def c9Fs : FileSystem where
  isFile _ := false
  isDir p := p == c9Dir || p == c9SubMp4
  rglob p := if p == c9Dir then [c9SubMp4] else []
  pexists p := p == c9Dir || p == c9SubMp4

/-- C9: the directory scan's membership test looks only at the final
suffix and never at `is_file`; any walked entry that is itself a
directory (not a regular file) whose name ends in `.mp4`
case-insensitively is included in the discovered input files. -/
theorem dir_scan_includes_mp4_subdirs (fs : FileSystem) (p e : PyPath)
    (hd : fs.isDir p = true) (hf : fs.isFile p = false)
    (hde : fs.isDir e = true) (hfe : fs.isFile e = false)
    (hmem : e ∈ fs.rglob p)
    (hsuf : pyLower (psuffix e.name) = (".mp4").toList) :
    e ∈ (get_mp4_files fs p).1 := by
  unfold get_mp4_files
  simp [hf, hd, List.mem_filter, hmem, hsuf]

/-- Witness for `dir_scan_includes_mp4_subdirs`: the subdirectory
`r/clips.mp4` is discovered as an input file. -/
theorem dir_scan_includes_mp4_subdirs_witness :
    c9Fs.isDir c9Dir = true
    ∧ c9Fs.isFile c9Dir = false
    ∧ c9Fs.isDir c9SubMp4 = true
    ∧ c9Fs.isFile c9SubMp4 = false
    ∧ c9SubMp4 ∈ c9Fs.rglob c9Dir
    ∧ pyLower (psuffix c9SubMp4.name) = (".mp4").toList
    ∧ c9SubMp4 ∈ (get_mp4_files c9Fs c9Dir).1 :=
  ⟨by decide, by decide, by decide, by decide, by decide, by decide,
    dir_scan_includes_mp4_subdirs c9Fs c9Dir c9SubMp4
      (by decide) (by decide) (by decide) (by decide) (by decide) (by decide)⟩

/-! ### Lemmas about `exec_ffmpeg` and the batch loop -/

/-- The four mutually exclusive behaviours of `exec_ffmpeg`. -/
lemma exec_ffmpeg_spec (run : String → Bool) (fs : FileSystem)
    (i o : PyPath) (P : VideoPresetInfo) :
    (fs.pexists i = false ∧ exec_ffmpeg run fs i o P = (.notFound, fs))
    ∨ (fs.pexists i = true ∧ fs.pexists o = true
        ∧ exec_ffmpeg run fs i o P = (.skipped, fs))
    ∨ (fs.pexists i = true ∧ fs.pexists o = false
        ∧ run (ffmpeg_cmd i o P) = true
        ∧ exec_ffmpeg run fs i o P = (.converted, addPath fs o))
    ∨ (fs.pexists i = true ∧ fs.pexists o = false
        ∧ run (ffmpeg_cmd i o P) = false
        ∧ exec_ffmpeg run fs i o P = (.execError, fs)) := by
  unfold exec_ffmpeg
  cases hi : fs.pexists i with
  | false => left; simp [hi]
  | true =>
    cases ho : fs.pexists o with
    | true => right; left; simp [hi, ho]
    | false =>
      cases hr : run (ffmpeg_cmd i o P) with
      | true => right; right; left; simp [hi, ho, hr]
      | false => right; right; right; simp [hi, ho, hr]

/-- Converting never removes a file: an existing path still exists after
any `exec_ffmpeg` call. -/
lemma exec_pexists_mono (run : String → Bool) (fs : FileSystem)
    (i o : PyPath) (P : VideoPresetInfo) (q : PyPath)
    (hq : fs.pexists q = true) :
    (exec_ffmpeg run fs i o P).2.pexists q = true := by
  rcases exec_ffmpeg_spec run fs i o P with ⟨_, he⟩ | ⟨_, _, he⟩
    | ⟨_, _, _, he⟩ | ⟨_, _, _, he⟩ <;> rw [he] <;> simp [addPath, hq]

lemma process_nil (run : String → Bool) (P : VideoPresetInfo)
    (fs : FileSystem) : process_mp4_files run P fs [] = ⟨[], fs, true⟩ := rfl

lemma process_step (run : String → Bool) (P : VideoPresetInfo)
    (fs : FileSystem) (f : PyPath) (rest : List PyPath) :
    process_mp4_files run P fs (f :: rest)
      = if (exec_ffmpeg run fs f (output_path f P) P).1 = .notFound
            ∨ (exec_ffmpeg run fs f (output_path f P) P).1 = .execError then
          ⟨[(f, (exec_ffmpeg run fs f (output_path f P) P).1)],
            (exec_ffmpeg run fs f (output_path f P) P).2, false⟩
        else
          ⟨(f, (exec_ffmpeg run fs f (output_path f P) P).1)
              :: (process_mp4_files run P
                    (exec_ffmpeg run fs f (output_path f P) P).2 rest).log,
            (process_mp4_files run P
              (exec_ffmpeg run fs f (output_path f P) P).2 rest).fs,
            (process_mp4_files run P
              (exec_ffmpeg run fs f (output_path f P) P).2 rest).ok⟩ := rfl

/-- A loop that finished without an exception logged exactly the files it
was given, in order. -/
lemma process_ok_log (run : String → Bool) (P : VideoPresetInfo) :
    ∀ (files : List PyPath) (fs : FileSystem),
      (process_mp4_files run P fs files).ok = true →
      (process_mp4_files run P fs files).log.map Prod.fst = files := by
  intro files
  induction files with
  | nil => intro fs _; simp [process_nil]
  | cons f rest ih =>
    intro fs h
    by_cases hc : (exec_ffmpeg run fs f (output_path f P) P).1 = .notFound
        ∨ (exec_ffmpeg run fs f (output_path f P) P).1 = .execError
    · rw [process_step, if_pos hc] at h
      simp at h
    · rw [process_step, if_neg hc] at h ⊢
      simpa using ih _ h

/-- Splitting the loop at a prefix that completed without an exception. -/
lemma process_append (run : String → Bool) (P : VideoPresetInfo) :
    ∀ (pre rest : List PyPath) (fs : FileSystem),
      (process_mp4_files run P fs pre).ok = true →
      process_mp4_files run P fs (pre ++ rest)
        = ⟨(process_mp4_files run P fs pre).log
              ++ (process_mp4_files run P (process_mp4_files run P fs pre).fs rest).log,
            (process_mp4_files run P (process_mp4_files run P fs pre).fs rest).fs,
            (process_mp4_files run P (process_mp4_files run P fs pre).fs rest).ok⟩ := by
  intro pre
  induction pre with
  | nil => intro rest fs _; simp [process_nil]
  | cons f pre ih =>
    intro rest fs h
    by_cases hc : (exec_ffmpeg run fs f (output_path f P) P).1 = .notFound
        ∨ (exec_ffmpeg run fs f (output_path f P) P).1 = .execError
    · rw [process_step, if_pos hc] at h
      simp at h
    · rw [process_step, if_neg hc] at h
      rw [List.cons_append, process_step, if_neg hc,
        process_step run P fs f pre, if_neg hc,
        ih rest (exec_ffmpeg run fs f (output_path f P) P).2 h]
      simp

/-- C2: when every file before `f` converts (or skips) successfully and
the conversion of `f` itself fails — a missing input or a non-zero exit of
the external tool — the batch aborts: the failure propagates out of the
loop (`ok = false`) and the files after `f` are never touched, the log
covering exactly the prefix up to and including `f`. -/
theorem failure_stops_batch (run : String → Bool) (P : VideoPresetInfo)
    (fs : FileSystem) (pre post : List PyPath) (f : PyPath)
    (hpre : (process_mp4_files run P fs pre).ok = true)
    (hfail : (exec_ffmpeg run (process_mp4_files run P fs pre).fs f
                (output_path f P) P).1 = .notFound
      ∨ (exec_ffmpeg run (process_mp4_files run P fs pre).fs f
                (output_path f P) P).1 = .execError) :
    (process_mp4_files run P fs (pre ++ f :: post)).ok = false
    ∧ (process_mp4_files run P fs (pre ++ f :: post)).log.map Prod.fst
        = pre ++ [f] := by
  rw [process_append run P pre (f :: post) fs hpre]
  rw [process_step, if_pos hfail]
  refine ⟨rfl, ?_⟩
  simp [process_ok_log run P pre fs hpre]

/-- Two `.mp4` inputs `v1.mp4`, `v2.mp4` with no outputs present. -/
def c2Fs : FileSystem where
  isFile p := ([⟨[], ("v1.mp4").toList⟩, ⟨[], ("v2.mp4").toList⟩] : List PyPath).contains p
  isDir _ := false
  rglob _ := []
  pexists p := ([⟨[], ("v1.mp4").toList⟩, ⟨[], ("v2.mp4").toList⟩] : List PyPath).contains p

/-- Witness for `failure_stops_batch`: with an external tool that always
fails, the batch over `[v1.mp4, v2.mp4]` aborts on the first file and
never touches the second. -/
theorem failure_stops_batch_witness :
    (process_mp4_files (fun _ => false) VideoPreset.h265_fhd_6.info c2Fs []).ok = true
    ∧ ((exec_ffmpeg (fun _ => false)
          (process_mp4_files (fun _ => false) VideoPreset.h265_fhd_6.info c2Fs []).fs
          ⟨[], ("v1.mp4").toList⟩
          (output_path ⟨[], ("v1.mp4").toList⟩ VideoPreset.h265_fhd_6.info)
          VideoPreset.h265_fhd_6.info).1 = .notFound
        ∨ (exec_ffmpeg (fun _ => false)
            (process_mp4_files (fun _ => false) VideoPreset.h265_fhd_6.info c2Fs []).fs
            ⟨[], ("v1.mp4").toList⟩
            (output_path ⟨[], ("v1.mp4").toList⟩ VideoPreset.h265_fhd_6.info)
            VideoPreset.h265_fhd_6.info).1 = .execError)
    ∧ ((process_mp4_files (fun _ => false) VideoPreset.h265_fhd_6.info c2Fs
          ([] ++ ⟨[], ("v1.mp4").toList⟩ :: [⟨[], ("v2.mp4").toList⟩])).ok = false
        ∧ (process_mp4_files (fun _ => false) VideoPreset.h265_fhd_6.info c2Fs
            ([] ++ ⟨[], ("v1.mp4").toList⟩ :: [⟨[], ("v2.mp4").toList⟩])).log.map Prod.fst
          = [] ++ [⟨[], ("v1.mp4").toList⟩]) :=
  ⟨by decide, Or.inr (by decide),
    failure_stops_batch (fun _ => false) VideoPreset.h265_fhd_6.info c2Fs
      [] [⟨[], ("v2.mp4").toList⟩] ⟨[], ("v1.mp4").toList⟩
      (by decide) (Or.inr (by decide))⟩

/-- C6: a missing input file fails fast — the outcome is the raised
`FileNotFoundError` and does not depend on the external-process oracle at
all (the process is never invoked) — and the batch aborts at that file. -/
theorem missing_input_aborts (run : String → Bool) (P : VideoPresetInfo)
    (fs : FileSystem) (f : PyPath) (rest : List PyPath)
    (h : fs.pexists f = false) :
    (∀ run2 : String → Bool,
        exec_ffmpeg run2 fs f (output_path f P) P = (.notFound, fs))
    ∧ (process_mp4_files run P fs (f :: rest)).ok = false
    ∧ (process_mp4_files run P fs (f :: rest)).log = [(f, .notFound)] := by
  have he : ∀ run2 : String → Bool,
      exec_ffmpeg run2 fs f (output_path f P) P = (.notFound, fs) := by
    intro run2
    unfold exec_ffmpeg
    simp [h]
  have hc : (exec_ffmpeg run fs f (output_path f P) P).1 = FfmpegResult.notFound
      ∨ (exec_ffmpeg run fs f (output_path f P) P).1 = FfmpegResult.execError := by
    left
    rw [he run]
  refine ⟨he, ?_, ?_⟩ <;> rw [process_step, if_pos hc]
  simp [he run]

/-- A filesystem in which nothing exists, so every input is missing. -/
def c6Fs : FileSystem where
  isFile _ := false
  isDir _ := false
  rglob _ := []
  pexists _ := false

/-- Witness for `missing_input_aborts` at a vanished `gone.mp4`. -/
theorem missing_input_aborts_witness :
    c6Fs.pexists ⟨[], ("gone.mp4").toList⟩ = false
    ∧ ((∀ run2 : String → Bool,
          exec_ffmpeg run2 c6Fs ⟨[], ("gone.mp4").toList⟩
              (output_path ⟨[], ("gone.mp4").toList⟩ VideoPreset.av1_fhd_5.info)
              VideoPreset.av1_fhd_5.info
            = (.notFound, c6Fs))
        ∧ (process_mp4_files (fun _ => true) VideoPreset.av1_fhd_5.info c6Fs
              [⟨[], ("gone.mp4").toList⟩]).ok = false
        ∧ (process_mp4_files (fun _ => true) VideoPreset.av1_fhd_5.info c6Fs
              [⟨[], ("gone.mp4").toList⟩]).log
            = [(⟨[], ("gone.mp4").toList⟩, .notFound)]) :=
  ⟨by decide,
    missing_input_aborts (fun _ => true) VideoPreset.av1_fhd_5.info c6Fs
      ⟨[], ("gone.mp4").toList⟩ [] (by decide)⟩

/-- Existing paths persist through a whole batch run. -/
lemma process_pexists_mono (run : String → Bool) (P : VideoPresetInfo) :
    ∀ (files : List PyPath) (fs : FileSystem) (q : PyPath),
      fs.pexists q = true →
      (process_mp4_files run P fs files).fs.pexists q = true := by
  intro files
  induction files with
  | nil => intro fs q hq; simpa [process_nil] using hq
  | cons f rest ih =>
    intro fs q hq
    by_cases hc : (exec_ffmpeg run fs f (output_path f P) P).1 = .notFound
        ∨ (exec_ffmpeg run fs f (output_path f P) P).1 = .execError
    · rw [process_step, if_pos hc]
      exact exec_pexists_mono run fs f (output_path f P) P q hq
    · rw [process_step, if_neg hc]
      exact ih _ q (exec_pexists_mono run fs f (output_path f P) P q hq)

/-- After a batch that finished without an exception, every processed
input and every derived output path exists. -/
lemma process_ok_all_exist (run : String → Bool) (P : VideoPresetInfo) :
    ∀ (files : List PyPath) (fs : FileSystem),
      (process_mp4_files run P fs files).ok = true →
      ∀ f ∈ files,
        (process_mp4_files run P fs files).fs.pexists f = true
        ∧ (process_mp4_files run P fs files).fs.pexists (output_path f P) = true := by
  intro files
  induction files with
  | nil => intro fs _ f hf; simp at hf
  | cons g rest ih =>
    intro fs h f hf
    by_cases hc : (exec_ffmpeg run fs g (output_path g P) P).1 = .notFound
        ∨ (exec_ffmpeg run fs g (output_path g P) P).1 = .execError
    · rw [process_step, if_pos hc] at h
      simp at h
    · rw [process_step, if_neg hc] at h ⊢
      have hgood : ((exec_ffmpeg run fs g (output_path g P) P).2.pexists g = true
          ∧ (exec_ffmpeg run fs g (output_path g P) P).2.pexists (output_path g P) = true) := by
        rcases exec_ffmpeg_spec run fs g (output_path g P) P with
          ⟨_, he⟩ | ⟨h1, h2, he⟩ | ⟨h1, h2, _, he⟩ | ⟨_, _, _, he⟩
        · rw [he] at hc; simp at hc
        · rw [he]; exact ⟨h1, h2⟩
        · rw [he]; constructor <;> simp [addPath, h1]
        · rw [he] at hc; simp at hc
      rcases List.mem_cons.mp hf with rfl | hmem
      · exact ⟨process_pexists_mono run P rest _ f hgood.1,
          process_pexists_mono run P rest _ (output_path f P) hgood.2⟩
      · exact ih _ h f hmem

/-- A batch over files whose inputs and outputs all already exist only
skips: every file is logged `skipped`, nothing fails, and the filesystem
is unchanged. -/
lemma process_all_skipped (run : String → Bool) (P : VideoPresetInfo) :
    ∀ (files : List PyPath) (fs : FileSystem),
      (∀ f ∈ files, fs.pexists f = true ∧ fs.pexists (output_path f P) = true) →
      process_mp4_files run P fs files
        = ⟨files.map (fun f => (f, FfmpegResult.skipped)), fs, true⟩ := by
  intro files
  induction files with
  | nil => intro fs _; simp [process_nil]
  | cons f rest ih =>
    intro fs h
    have hf := h f (by simp)
    have he : exec_ffmpeg run fs f (output_path f P) P = (.skipped, fs) := by
      unfold exec_ffmpeg
      simp [hf.1, hf.2]
    have hc : ¬ ((exec_ffmpeg run fs f (output_path f P) P).1 = FfmpegResult.notFound
        ∨ (exec_ffmpeg run fs f (output_path f P) P).1 = FfmpegResult.execError) := by
      rw [he]
      simp
    rw [process_step, if_neg hc, he,
      ih fs (fun g hg => h g (List.mem_cons_of_mem f hg))]
    simp

/-- C3: [skip branch] an `exec_ffmpeg` call whose input exists and whose
output path already exists only skips — no error, filesystem untouched;
[idempotence] re-running a batch that previously completed without an
exception performs zero conversions: every file is merely skipped and the
run finishes successfully with the filesystem unchanged. -/
theorem existing_output_skip_and_rerun_idempotent (run : String → Bool)
    (P : VideoPresetInfo) (fs : FileSystem) (files : List PyPath)
    (hok : (process_mp4_files run P fs files).ok = true) :
    (∀ (run2 : String → Bool) (fs2 : FileSystem) (i o : PyPath),
        fs2.pexists i = true → fs2.pexists o = true →
        exec_ffmpeg run2 fs2 i o P = (.skipped, fs2))
    ∧ process_mp4_files run P (process_mp4_files run P fs files).fs files
        = ⟨files.map (fun f => (f, FfmpegResult.skipped)),
            (process_mp4_files run P fs files).fs, true⟩ := by
  constructor
  · intro run2 fs2 i o h1 h2
    unfold exec_ffmpeg
    simp [h1, h2]
  · exact process_all_skipped run P files _
      (process_ok_all_exist run P files fs hok)

/-- A single input `v.mp4`, present, with no output yet. -/
def c3Fs : FileSystem where
  isFile p := p == (⟨[], ("v.mp4").toList⟩ : PyPath)
  isDir _ := false
  rglob _ := []
  pexists p := p == (⟨[], ("v.mp4").toList⟩ : PyPath)

/-- Witness for `existing_output_skip_and_rerun_idempotent`: after a first
successful run over `[v.mp4]` (which converts the file), the second run
only skips. -/
theorem existing_output_skip_and_rerun_idempotent_witness :
    (process_mp4_files (fun _ => true) VideoPreset.av1_fhd_5.info c3Fs
        [⟨[], ("v.mp4").toList⟩]).ok = true
    ∧ ((∀ (run2 : String → Bool) (fs2 : FileSystem) (i o : PyPath),
          fs2.pexists i = true → fs2.pexists o = true →
          exec_ffmpeg run2 fs2 i o VideoPreset.av1_fhd_5.info = (.skipped, fs2))
        ∧ process_mp4_files (fun _ => true) VideoPreset.av1_fhd_5.info
            (process_mp4_files (fun _ => true) VideoPreset.av1_fhd_5.info c3Fs
              [⟨[], ("v.mp4").toList⟩]).fs
            [⟨[], ("v.mp4").toList⟩]
          = ⟨[⟨[], ("v.mp4").toList⟩].map (fun f => (f, FfmpegResult.skipped)),
              (process_mp4_files (fun _ => true) VideoPreset.av1_fhd_5.info c3Fs
                [⟨[], ("v.mp4").toList⟩]).fs, true⟩) :=
  ⟨by decide,
    existing_output_skip_and_rerun_idempotent (fun _ => true)
      VideoPreset.av1_fhd_5.info c3Fs [⟨[], ("v.mp4").toList⟩] (by decide)⟩

/-! ### The shape of the constructed command line (C7) -/

/-- `seg` occurs contiguously inside `big`. -/
def containsSeg (big seg : String) : Prop :=
  ∃ l r : List Char, big.toList = l ++ seg.toList ++ r

/-- The command line, fully regrouped into its fixed pieces and the three
interpolated values. -/
lemma ffmpeg_cmd_chars (i o : PyPath) (P : VideoPresetInfo) :
    (ffmpeg_cmd i o P).toList =
      ("ffmpeg -i ").toList ++ ['\"'] ++ (pathStr i).toList ++ ['\"']
        ++ (" -c:v ").toList ++ (P.codec.info.lib).toList
        ++ (" -crf 23").toList ++ (" -preset medium").toList
        ++ (" -vf \"scale=").toList ++ (P.resolution.val).toList ++ ['\"']
        ++ (" -c:a copy").toList ++ (" -loglevel error").toList
        ++ [' '] ++ ['\"'] ++ (pathStr o).toList ++ ['\"'] := by
  have d1 : ("ffmpeg -i \"").toList = ("ffmpeg -i ").toList ++ ['\"'] := by decide
  have d2 : ("\" -c:v ").toList = ['\"'] ++ (" -c:v ").toList := by decide
  have d3 : (" -crf 23 -preset medium -vf \"scale=").toList
      = (" -crf 23").toList ++ (" -preset medium").toList
        ++ (" -vf \"scale=").toList := by decide
  have d4 : ("\" -c:a copy -loglevel error \"").toList
      = ['\"'] ++ (" -c:a copy").toList ++ (" -loglevel error").toList
        ++ [' '] ++ ['\"'] := by decide
  have d5 : ("\"").toList = ['\"'] := by decide
  simp [ffmpeg_cmd, str_toList_append, d1, d2, d3, d4, d5, List.append_assoc]

/-- C7: the constructed command contains the quoted input path, the
preset's encoder library id, the fixed quality parameter `23`, the fixed
speed/quality parameter `medium`, a scale filter carrying the preset's
resolution string, the audio passthrough flag `-c:a copy`, the reduced
verbosity flag `-loglevel error`, and the quoted output path; both paths
appear as literal arguments wrapped in double quotes, so embedded spaces
are tolerated. -/
theorem ffmpeg_cmd_contents (i o : PyPath) (P : VideoPresetInfo) :
    containsSeg (ffmpeg_cmd i o P) ("\"" ++ pathStr i ++ "\"")
    ∧ containsSeg (ffmpeg_cmd i o P) (" -c:v " ++ P.codec.info.lib)
    ∧ containsSeg (ffmpeg_cmd i o P) (" -crf 23")
    ∧ containsSeg (ffmpeg_cmd i o P) (" -preset medium")
    ∧ containsSeg (ffmpeg_cmd i o P)
        (" -vf \"scale=" ++ P.resolution.val ++ "\"")
    ∧ containsSeg (ffmpeg_cmd i o P) (" -c:a copy")
    ∧ containsSeg (ffmpeg_cmd i o P) (" -loglevel error")
    ∧ containsSeg (ffmpeg_cmd i o P) ("\"" ++ pathStr o ++ "\"") := by
  have d5 : ("\"").toList = ['\"'] := by decide
  refine ⟨⟨("ffmpeg -i ").toList,
      (" -c:v ").toList ++ (P.codec.info.lib).toList
        ++ (" -crf 23").toList ++ (" -preset medium").toList
        ++ (" -vf \"scale=").toList ++ (P.resolution.val).toList ++ ['\"']
        ++ (" -c:a copy").toList ++ (" -loglevel error").toList
        ++ [' '] ++ ['\"'] ++ (pathStr o).toList ++ ['\"'], ?_⟩,
    ⟨("ffmpeg -i ").toList ++ ['\"'] ++ (pathStr i).toList ++ ['\"'],
      (" -crf 23").toList ++ (" -preset medium").toList
        ++ (" -vf \"scale=").toList ++ (P.resolution.val).toList ++ ['\"']
        ++ (" -c:a copy").toList ++ (" -loglevel error").toList
        ++ [' '] ++ ['\"'] ++ (pathStr o).toList ++ ['\"'], ?_⟩,
    ⟨("ffmpeg -i ").toList ++ ['\"'] ++ (pathStr i).toList ++ ['\"']
        ++ (" -c:v ").toList ++ (P.codec.info.lib).toList,
      (" -preset medium").toList
        ++ (" -vf \"scale=").toList ++ (P.resolution.val).toList ++ ['\"']
        ++ (" -c:a copy").toList ++ (" -loglevel error").toList
        ++ [' '] ++ ['\"'] ++ (pathStr o).toList ++ ['\"'], ?_⟩,
    ⟨("ffmpeg -i ").toList ++ ['\"'] ++ (pathStr i).toList ++ ['\"']
        ++ (" -c:v ").toList ++ (P.codec.info.lib).toList ++ (" -crf 23").toList,
      (" -vf \"scale=").toList ++ (P.resolution.val).toList ++ ['\"']
        ++ (" -c:a copy").toList ++ (" -loglevel error").toList
        ++ [' '] ++ ['\"'] ++ (pathStr o).toList ++ ['\"'], ?_⟩,
    ⟨("ffmpeg -i ").toList ++ ['\"'] ++ (pathStr i).toList ++ ['\"']
        ++ (" -c:v ").toList ++ (P.codec.info.lib).toList ++ (" -crf 23").toList
        ++ (" -preset medium").toList,
      (" -c:a copy").toList ++ (" -loglevel error").toList
        ++ [' '] ++ ['\"'] ++ (pathStr o).toList ++ ['\"'], ?_⟩,
    ⟨("ffmpeg -i ").toList ++ ['\"'] ++ (pathStr i).toList ++ ['\"']
        ++ (" -c:v ").toList ++ (P.codec.info.lib).toList ++ (" -crf 23").toList
        ++ (" -preset medium").toList ++ (" -vf \"scale=").toList
        ++ (P.resolution.val).toList ++ ['\"'],
      (" -loglevel error").toList
        ++ [' '] ++ ['\"'] ++ (pathStr o).toList ++ ['\"'], ?_⟩,
    ⟨("ffmpeg -i ").toList ++ ['\"'] ++ (pathStr i).toList ++ ['\"']
        ++ (" -c:v ").toList ++ (P.codec.info.lib).toList ++ (" -crf 23").toList
        ++ (" -preset medium").toList ++ (" -vf \"scale=").toList
        ++ (P.resolution.val).toList ++ ['\"'] ++ (" -c:a copy").toList,
      [' '] ++ ['\"'] ++ (pathStr o).toList ++ ['\"'], ?_⟩,
    ⟨("ffmpeg -i ").toList ++ ['\"'] ++ (pathStr i).toList ++ ['\"']
        ++ (" -c:v ").toList ++ (P.codec.info.lib).toList ++ (" -crf 23").toList
        ++ (" -preset medium").toList ++ (" -vf \"scale=").toList
        ++ (P.resolution.val).toList ++ ['\"'] ++ (" -c:a copy").toList
        ++ (" -loglevel error").toList ++ [' '],
      [], ?_⟩⟩ <;>
  rw [ffmpeg_cmd_chars] <;>
  simp [str_toList_append, d5, List.append_assoc]

end VideoCompress
